import Mathlib

/-!
# Verification of the Supra-Sub narration pipeline (`main.py`)

A shallow embedding, in Lean 4, of the pure content of `main.py`:
filename sanitisation, the dedup-store load/save pair (over a model of
parsed JSON file states), the TTS text preparation and bounded retry
loop, the fetch–filter–synthesise pipeline as a fold over fetched
submissions, and the HTML page renderer.  External effects (the
filesystem, the speech-synthesis service, the wall clock) are modelled
as explicit parameters/oracles.  Theorems at the end settle the
specification claims against these definitions.
-/

namespace SupraSub

/-! ## Configuration constants (from `main.py`, module scope) -/

def TARGET_SUBREDDIT : String := "SluttyConfessions"

def POST_LIMIT : Nat := 10

def MIN_TEXT_LENGTH : Nat := 50

def MAX_TEXT_LENGTH : Nat := 5000

def AUDIO_DIR : String := "audio"

/-! ## `sanitize_filename`

`main.py` lines 37–46:
```python
name = re.sub(r'[^a-zA-Z0-9_\-\.]', '_', name)
name = re.sub(r'_+', '_', name)
name = name.strip('_')
return name[:100]
```
Modelled over `List Char` (Python `str` operations act on code points).
-/

/-- A character admitted by the regex class `[a-zA-Z0-9_\-\.]`. -/
def isValidChar (c : Char) : Bool :=
  (decide ('a' ≤ c) && decide (c ≤ 'z')) ||
  (decide ('A' ≤ c) && decide (c ≤ 'Z')) ||
  (decide ('0' ≤ c) && decide (c ≤ '9')) ||
  c == '_' || c == '-' || c == '.'

/-- `re.sub(r'[^a-zA-Z0-9_\-\.]', '_', name)`: every character outside
the class becomes an underscore. -/
def replaceInvalid (l : List Char) : List Char :=
  l.map (fun c => if isValidChar c then c else '_')

/-- `re.sub(r'_+', '_', name)`: each maximal run of underscores becomes a
single underscore. -/
def collapseUnderscores : List Char → List Char
  | [] => []
  | [c] => [c]
  | a :: b :: rest =>
    if a = '_' ∧ b = '_' then collapseUnderscores (b :: rest)
    else a :: collapseUnderscores (b :: rest)

/-- Is the character an underscore (the strip set of `strip('_')`). -/
def isUnd (c : Char) : Bool := c == '_'

/-- Python `name.strip('_')`: drop every leading and trailing underscore. -/
def stripUnderscores (l : List Char) : List Char :=
  ((l.dropWhile isUnd).reverse.dropWhile isUnd).reverse

/-- The whole of `sanitize_filename`, on the character list. -/
def sanitizeList (l : List Char) : List Char :=
  (stripUnderscores (collapseUnderscores (replaceInvalid l))).take 100

/-- `sanitize_filename` from `main.py`. -/
def sanitize_filename (s : String) : String :=
  String.mk (sanitizeList s.data)

/-- The property claimed of `sanitize_filename`'s output: characters in
the class, no two adjacent underscores, no leading underscore, no
trailing underscore, length at most 100. -/
def sanitizeOutputSpec (s : String) : Prop :=
  (∀ c ∈ (sanitize_filename s).data, isValidChar c = true) ∧
  (sanitize_filename s).data.Chain' (fun a b => ¬(a = '_' ∧ b = '_')) ∧
  (sanitize_filename s).data.head? ≠ some '_' ∧
  (sanitize_filename s).data.getLast? ≠ some '_' ∧
  (sanitize_filename s).length ≤ 100

instance (s : String) : Decidable (sanitizeOutputSpec s) := by
  unfold sanitizeOutputSpec; infer_instance

/-! ### Lemmas about `sanitize_filename` -/

theorem collapseUnderscores_sublist :
    ∀ l : List Char, (collapseUnderscores l).Sublist l
  | [] => List.Sublist.refl []
  | [c] => List.Sublist.refl [c]
  | a :: b :: rest => by
    rw [collapseUnderscores]
    split
    · exact (collapseUnderscores_sublist (b :: rest)).cons a
    · exact (collapseUnderscores_sublist (b :: rest)).cons₂ a

theorem stripUnderscores_sublist (l : List Char) :
    (stripUnderscores l).Sublist l := by
  unfold stripUnderscores
  refine List.Sublist.trans ?_ (List.dropWhile_sublist isUnd)
  have h : ((l.dropWhile isUnd).reverse.dropWhile isUnd).Sublist
      (l.dropWhile isUnd).reverse := List.dropWhile_sublist isUnd
  simpa using h.reverse

theorem sanitizeList_sublist (l : List Char) :
    (sanitizeList l).Sublist (replaceInvalid l) := by
  unfold sanitizeList
  exact ((List.take_sublist _ _).trans (stripUnderscores_sublist _)).trans
    (collapseUnderscores_sublist _)

theorem valid_of_mem_replaceInvalid {c : Char} {l : List Char}
    (h : c ∈ replaceInvalid l) : isValidChar c = true := by
  unfold replaceInvalid at h
  rcases List.mem_map.mp h with ⟨d, _, hd⟩
  by_cases hv : isValidChar d = true
  · rw [if_pos hv] at hd
    exact hd ▸ hv
  · rw [if_neg hv] at hd
    rw [← hd]
    decide

/-- Head preservation: collapsing underscores never changes the first
character. -/
theorem collapseUnderscores_cons (a : Char) (l : List Char) :
    ∃ t, collapseUnderscores (a :: l) = a :: t := by
  induction l generalizing a with
  | nil => exact ⟨[], rfl⟩
  | cons b rest ih =>
    rw [collapseUnderscores]
    split
    · rename_i h
      rcases ih b with ⟨t, ht⟩
      exact ⟨t, by rw [ht, h.1, h.2]⟩
    · exact ⟨collapseUnderscores (b :: rest), rfl⟩

theorem chain'_collapseUnderscores :
    ∀ l : List Char,
      (collapseUnderscores l).Chain' (fun a b => ¬(a = '_' ∧ b = '_'))
  | [] => List.chain'_nil
  | [c] => List.chain'_singleton c
  | a :: b :: rest => by
    rw [collapseUnderscores]
    split
    · exact chain'_collapseUnderscores (b :: rest)
    · rename_i h
      rcases collapseUnderscores_cons b rest with ⟨t, ht⟩
      rw [ht]
      exact List.chain'_cons.mpr ⟨h, ht ▸ chain'_collapseUnderscores (b :: rest)⟩

/-- Reversal preserves the no-adjacent-underscores property (the
relation is symmetric). -/
theorem chain'_und_reverse {l : List Char}
    (h : l.Chain' (fun a b => ¬(a = '_' ∧ b = '_'))) :
    l.reverse.Chain' (fun a b => ¬(a = '_' ∧ b = '_')) := by
  rw [List.chain'_reverse]
  exact h.imp (fun a b hab hba => hab ⟨hba.2, hba.1⟩)

theorem chain'_stripUnderscores {l : List Char}
    (h : l.Chain' (fun a b => ¬(a = '_' ∧ b = '_'))) :
    (stripUnderscores l).Chain' (fun a b => ¬(a = '_' ∧ b = '_')) := by
  unfold stripUnderscores
  exact chain'_und_reverse
    (((chain'_und_reverse (h.suffix (List.dropWhile_suffix isUnd))).suffix
      (List.dropWhile_suffix isUnd)))

theorem head?_dropWhile_und {l : List Char} {a : Char}
    (h : (l.dropWhile isUnd).head? = some a) : isUnd a = false := by
  induction l with
  | nil => simp at h
  | cons b rest ih =>
    rw [List.dropWhile_cons] at h
    split at h
    · exact ih h
    · rename_i hb
      simp only [List.head?_cons, Option.some.injEq] at h
      subst h
      simpa using hb

theorem stripUnderscores_isPrefix_dropWhile (l : List Char) :
    (stripUnderscores l).IsPrefix (l.dropWhile isUnd) := by
  unfold stripUnderscores
  rw [← List.reverse_suffix, List.reverse_reverse]
  exact List.dropWhile_suffix isUnd

theorem head?_of_isPrefix {α : Type _} {l₁ l₂ : List α} (h : l₁.IsPrefix l₂)
    {a : α} (ha : l₁.head? = some a) : l₂.head? = some a := by
  rcases h with ⟨t, rfl⟩
  cases l₁ with
  | nil => simp at ha
  | cons b rest => simpa using ha

theorem head?_stripUnderscores_ne {l : List Char} {a : Char}
    (h : (stripUnderscores l).head? = some a) : a ≠ '_' := by
  have h2 := head?_of_isPrefix (stripUnderscores_isPrefix_dropWhile l) h
  have h3 := head?_dropWhile_und h2
  intro hc
  subst hc
  simp [isUnd] at h3

theorem getLast?_stripUnderscores_ne {l : List Char} {a : Char}
    (h : (stripUnderscores l).getLast? = some a) : a ≠ '_' := by
  unfold stripUnderscores at h
  rw [List.getLast?_reverse] at h
  have h3 := head?_dropWhile_und h
  intro hc
  subst hc
  simp [isUnd] at h3

theorem head?_take {α : Type _} (n : Nat) (l : List α) (hn : 0 < n) :
    (l.take n).head? = l.head? := by
  cases l with
  | nil => simp
  | cons a rest =>
    cases n with
    | zero => omega
    | succ m => simp

/-- Every character of the sanitised name lies in the admissible class. -/
theorem sanitize_filename_valid (s : String) :
    ∀ c ∈ (sanitize_filename s).data, isValidChar c = true := by
  intro c hc
  exact valid_of_mem_replaceInvalid ((sanitizeList_sublist s.data).mem hc)

/-- The sanitised name has no two adjacent underscores. -/
theorem sanitize_filename_chain' (s : String) :
    (sanitize_filename s).data.Chain' (fun a b => ¬(a = '_' ∧ b = '_')) := by
  show (sanitizeList s.data).Chain' _
  unfold sanitizeList
  have h := chain'_stripUnderscores
    (chain'_collapseUnderscores (replaceInvalid s.data))
  have htake := List.take_prefix 100
    (stripUnderscores (collapseUnderscores (replaceInvalid s.data)))
  exact h.prefix htake

/-- The sanitised name does not start with an underscore. -/
theorem sanitize_filename_head (s : String) :
    (sanitize_filename s).data.head? ≠ some '_' := by
  show (sanitizeList s.data).head? ≠ some '_'
  unfold sanitizeList
  intro h
  rw [head?_take 100 _ (by omega)] at h
  exact head?_stripUnderscores_ne h rfl

/-- The sanitised name has at most 100 characters. -/
theorem sanitize_filename_len (s : String) :
    (sanitize_filename s).length ≤ 100 := by
  show (sanitizeList s.data).length ≤ 100
  unfold sanitizeList
  exact List.length_take_le 100 _

/-- If nothing is cut by the final truncation, the sanitised name does
not end with an underscore either. -/
theorem sanitize_filename_getLast_of_short (s : String)
    (h : (stripUnderscores (collapseUnderscores (replaceInvalid s.data))).length
      ≤ 100) :
    (sanitize_filename s).data.getLast? ≠ some '_' := by
  show (sanitizeList s.data).getLast? ≠ some '_'
  unfold sanitizeList
  rw [List.take_of_length_le h]
  intro hl
  exact getLast?_stripUnderscores_ne hl rfl

/-! ## The dedup store: `load_processed_posts` / `save_processed_posts`

`main.py` lines 49–67.  The JSON file is modelled at the level of its
parse result: a `FileState` is either an absent file, a file whose
`open` raises `IOError`, a file whose bytes fail to parse as JSON
(`json.JSONDecodeError`), or a file parsing to a JSON value.  (JSON
numbers are modelled by `Int`; no claim depends on the numeric leaf.)
-/

/-- A parsed JSON value. -/
inductive JValue where
  | jnull : JValue
  | jbool : Bool → JValue
  | jnum : Int → JValue
  | jstr : String → JValue
  | jarr : List JValue → JValue
  | jobj : List (String × JValue) → JValue

/-- The observable state of the dedup-store file as seen by
`load_processed_posts`. -/
inductive FileState where
  | absent : FileState
  | unreadable : FileState
  | unparsable : FileState
  | parsed : JValue → FileState

/-- Python hashability of a parsed JSON value (lists and dicts are
unhashable; `set(...)` raises `TypeError` on them). -/
def pyHashable : JValue → Bool
  | .jarr _ => false
  | .jobj _ => false
  | _ => true

/-- Python iteration over a parsed JSON value: arrays yield elements,
strings yield one-character strings, dicts yield keys; null, booleans
and numbers are not iterable. -/
def pyIter : JValue → Option (List JValue)
  | .jarr xs => some xs
  | .jstr s => some (s.data.map fun c => .jstr (String.mk [c]))
  | .jobj kvs => some (kvs.map fun kv => .jstr kv.1)
  | _ => none

/-- Equality used when building a Python set of hashable JSON scalars. -/
def scalarEq : JValue → JValue → Bool
  | .jnull, .jnull => true
  | .jbool a, .jbool b => a == b
  | .jnum a, .jnum b => a == b
  | .jstr a, .jstr b => a == b
  | _, _ => false

/-- Insert into the set representation unless an equal element is
already present. -/
def insertIfAbsent (a : JValue) (l : List JValue) : List JValue :=
  if l.any (scalarEq a) then l else l ++ [a]

/-- Python `set(v)` over a parsed JSON value `v`: `TypeError` when `v`
is not iterable or an element is unhashable, otherwise the set of the
iterated elements (represented as a duplicate-free list). -/
def pySet (v : JValue) : Except String (List JValue) :=
  match pyIter v with
  | none => .error "TypeError"
  | some xs =>
    if xs.all pyHashable then
      .ok (xs.foldl (fun acc a => insertIfAbsent a acc) [])
    else .error "TypeError"

/-- `load_processed_posts` from `main.py`: a missing file gives the
empty set; `IOError` and `json.JSONDecodeError` are caught and give the
empty set; otherwise the result is `set(json.load(f))`, whose
`TypeError` (on a non-iterable or unhashable parse) is *not* caught. -/
def load_processed_posts : FileState → Except String (List JValue)
  | .absent => .ok []
  | .unreadable => .ok []
  | .unparsable => .ok []
  | .parsed v => pySet v

/-- `save_processed_posts` from `main.py`, successful-write path:
`json.dump(list(processed_ids), f)` overwrites the file with the JSON
array of the set's elements; `ids` is the set in its iteration order.
Reading that file back parses to the same array. -/
def save_processed_posts (ids : List String) : FileState :=
  .parsed (.jarr (ids.map .jstr))

/-! ### Lemmas about the dedup store -/

theorem scalarEq_jstr_iff (a : String) (b : JValue) :
    scalarEq (.jstr a) b = true ↔ b = .jstr a := by
  cases b <;> simp [scalarEq]
  exact ⟨fun h => h ▸ rfl, fun h => h.symm⟩

theorem mem_insertIfAbsent_jstr {s : String} (acc : List JValue)
    (v : JValue) :
    v ∈ insertIfAbsent (.jstr s) acc ↔ v ∈ acc ∨ v = .jstr s := by
  unfold insertIfAbsent
  split
  · rename_i h
    rcases List.any_eq_true.mp h with ⟨b, hb, hsb⟩
    rw [scalarEq_jstr_iff] at hsb
    subst hsb
    constructor
    · exact fun hv => Or.inl hv
    · rintro (hv | rfl)
      · exact hv
      · exact hb
  · simp

theorem mem_setFold_jstr (l : List JValue) : ∀ acc : List JValue,
    (∀ x ∈ l, ∃ s : String, x = .jstr s) → ∀ v : JValue,
    (v ∈ l.foldl (fun acc a => insertIfAbsent a acc) acc ↔
      v ∈ acc ∨ v ∈ l) := by
  induction l with
  | nil =>
    intro acc _ v
    simp
  | cons a rest ih =>
    intro acc hl v
    rcases hl a (List.mem_cons_self a rest) with ⟨s, rfl⟩
    rw [List.foldl_cons, ih _ (fun x hx => hl x (List.mem_cons_of_mem _ hx)) v,
      mem_insertIfAbsent_jstr]
    simp only [List.mem_cons]
    tauto

/-- Loading the saved set succeeds and returns exactly the saved
identifiers (as JSON strings). -/
theorem load_save_mem (ids : List String) :
    ∃ out, load_processed_posts (save_processed_posts ids) = .ok out ∧
      ∀ v, v ∈ out ↔ ∃ s ∈ ids, v = JValue.jstr s := by
  refine ⟨(ids.map JValue.jstr).foldl (fun acc a => insertIfAbsent a acc) [],
    ?_, ?_⟩
  · show pySet (.jarr (ids.map .jstr)) = _
    have hall : (ids.map JValue.jstr).all pyHashable = true :=
      List.all_eq_true.mpr (fun x hx => by
        rcases List.mem_map.mp hx with ⟨s, _, rfl⟩
        rfl)
    simp only [pySet, pyIter]
    rw [if_pos hall]
  · intro v
    rw [mem_setFold_jstr _ []
      (fun x hx => by
        rcases List.mem_map.mp hx with ⟨s, _, rfl⟩
        exact ⟨s, rfl⟩)]
    simp only [List.not_mem_nil, false_or, List.mem_map]
    constructor
    · rintro ⟨s, hs, rfl⟩
      exact ⟨s, hs, rfl⟩
    · rintro ⟨s, hs, rfl⟩
      exact ⟨s, hs, rfl⟩

/-! ## `generate_tts` and the fetch–filter–synthesise pipeline

`main.py` lines 70–94 and 120–176.  The speech-synthesis service and
the audio-file cache on disk are oracles in an `Env`:
`synth text filepath attempt` says whether the `gTTS(...).save(...)`
call of the given (0-based) attempt succeeds, and `audioExists path`
is `os.path.exists(path)`.
-/

/-- The fixed suffix appended when the narration text is truncated. -/
def TRUNC_SUFFIX : String := "... [Content truncated due to length]"

/-- The text actually handed to the synthesiser by `generate_tts`
(lines 73–75): text longer than `MAX_TEXT_LENGTH` is cut to that length
and the fixed suffix is appended; shorter text passes unchanged. -/
def ttsText (text : String) : String :=
  if text.length > MAX_TEXT_LENGTH then
    text.take MAX_TEXT_LENGTH ++ TRUNC_SUFFIX
  else text

/-- External effects of one pipeline run. -/
structure Env where
  /-- `os.path.exists` on an audio path. -/
  audioExists : String → Bool
  /-- Whether synthesis attempt `k` (0-based) for the given prepared
  text and file path succeeds. -/
  synth : String → String → Nat → Bool

/-- The retry loop of `generate_tts` (lines 82–94): up to 3 attempts,
returning the filename at the first success, `none` after the third
failure.  The second component counts how many times the synthesis
dependency was invoked. -/
def generate_tts (env : Env) (text filename : String) :
    Option String × Nat :=
  if env.synth (ttsText text) (AUDIO_DIR ++ "/" ++ filename) 0 then
    (some filename, 1)
  else if env.synth (ttsText text) (AUDIO_DIR ++ "/" ++ filename) 1 then
    (some filename, 2)
  else if env.synth (ttsText text) (AUDIO_DIR ++ "/" ++ filename) 2 then
    (some filename, 3)
  else (none, 3)

/-- One fetched submission, with the fields `main.py` reads. -/
structure Submission where
  id : String
  title : String
  selftext : String
  is_self : Bool
  stickied : Bool
  created_utc : Int
  permalink : String
deriving DecidableEq

/-- One entry of `posts_data` (lines 161–168). -/
structure Post where
  id : String
  title : String
  text : String
  audio_file : String
  date : Int
  url : String
deriving DecidableEq

/-- `submission.title.strip()`. -/
def clean_title (s : Submission) : String := s.title.trim

/-- `f"Title: {clean_title}. Story: {submission.selftext}"`. -/
def full_text (s : Submission) : String :=
  "Title: " ++ clean_title s ++ ". Story: " ++ s.selftext

/-- `f"{submission.id}_{sanitize_filename(clean_title)}.mp3"`. -/
def audio_filename (s : Submission) : String :=
  s.id ++ "_" ++ sanitize_filename (clean_title s) ++ ".mp3"

/-- `os.path.join(AUDIO_DIR, audio_filename)`. -/
def audio_path (s : Submission) : String :=
  AUDIO_DIR ++ "/" ++ audio_filename s

/-- The record appended to `posts_data` for an accepted submission. -/
def mkPost (s : Submission) : Post :=
  { id := s.id
    title := clean_title s
    text := s.selftext
    audio_file := audio_filename s
    date := s.created_utc
    url := "https://www.reddit.com" ++ s.permalink }

/-- The filter of lines 130–134: a submission is skipped when its id is
already processed, it is stickied, it is not a self post, its body is
empty, or its body is shorter than `MIN_TEXT_LENGTH`. -/
def skipFilter (pids : Finset String) (s : Submission) : Bool :=
  decide (s.id ∈ pids) || s.stickied || !s.is_self ||
  decide (s.selftext = "") || decide (s.selftext.length < MIN_TEXT_LENGTH)

/-- The loop body of `fetch_and_process_posts` (lines 128–169) on the
state `(posts_data, processed_ids)`, instrumented with the number of
synthesis invocations made for this submission. -/
def processSubmissionC (env : Env) (st : List Post × Finset String)
    (s : Submission) : (List Post × Finset String) × Nat :=
  if skipFilter st.2 s then (st, 0)
  else if env.audioExists (audio_path s) then
    ((st.1 ++ [mkPost s], insert s.id st.2), 0)
  else
    match generate_tts env (full_text s) (audio_filename s) with
    | (some _, n) => ((st.1 ++ [mkPost s], insert s.id st.2), n)
    | (none, n) => (st, n)

/-- The loop body without the instrumentation. -/
def processSubmission (env : Env) (st : List Post × Finset String)
    (s : Submission) : List Post × Finset String :=
  (processSubmissionC env st s).1

/-- `fetch_and_process_posts`: folds the loop body over the fetched
submissions, starting from an empty `posts_data` and the loaded
`processed_ids`; returns `(posts_data, processed_ids)`. -/
def fetch_and_process_posts (env : Env) (subs : List Submission)
    (pids : Finset String) : List Post × Finset String :=
  subs.foldl (processSubmission env) ([], pids)

/-! ### Lemmas about the pipeline -/

/-- Each step only ever inserts into `processed_ids`. -/
theorem processSubmission_pids_mono (env : Env)
    (st : List Post × Finset String) (s : Submission) :
    st.2 ⊆ (processSubmission env st s).2 := by
  unfold processSubmission processSubmissionC
  split
  · exact Finset.Subset.refl _
  · split
    · exact Finset.subset_insert _ _
    · split
      · exact Finset.subset_insert _ _
      · exact Finset.Subset.refl _

/-- Each step appends to `posts_data` (the old posts stay, in place). -/
theorem processSubmission_posts_shape (env : Env)
    (st : List Post × Finset String) (s : Submission) :
    (processSubmission env st s).1 = st.1 ∨
      (processSubmission env st s) =
        (st.1 ++ [mkPost s], insert s.id st.2) := by
  unfold processSubmission processSubmissionC
  split
  · exact Or.inl rfl
  · split
    · exact Or.inr rfl
    · split
      · exact Or.inr rfl
      · exact Or.inl rfl

theorem foldl_pids_mono (env : Env) (subs : List Submission) :
    ∀ st : List Post × Finset String,
      st.2 ⊆ (subs.foldl (processSubmission env) st).2 := by
  induction subs with
  | nil =>
    intro st
    exact Finset.Subset.refl _
  | cons s rest ih =>
    intro st
    exact (processSubmission_pids_mono env st s).trans
      (ih (processSubmission env st s))

/-- Invariant: every accumulated post's id is in the accumulated set. -/
theorem foldl_posts_ids (env : Env) (subs : List Submission) :
    ∀ st : List Post × Finset String,
      (∀ p ∈ st.1, p.id ∈ st.2) →
      ∀ p ∈ (subs.foldl (processSubmission env) st).1,
        p.id ∈ (subs.foldl (processSubmission env) st).2 := by
  induction subs with
  | nil =>
    intro st h
    exact h
  | cons s rest ih =>
    intro st h
    refine ih (processSubmission env st s) ?_
    intro p hp
    rcases processSubmission_posts_shape env st s with hsh | hsh
    · rw [hsh] at hp
      exact processSubmission_pids_mono env st s (h p hp)
    · rw [hsh] at hp ⊢
      rcases List.mem_append.mp hp with hp | hp
      · exact Finset.mem_insert_of_mem (h p hp)
      · rw [List.mem_singleton.mp hp]
        exact Finset.mem_insert_self _ _

/-- The state-independent part of the skip filter. -/
def skipAlways (s : Submission) : Bool :=
  s.stickied || !s.is_self || decide (s.selftext = "") ||
  decide (s.selftext.length < MIN_TEXT_LENGTH)

theorem skipFilter_of_always {s : Submission} (h : skipAlways s = true)
    (pids : Finset String) : skipFilter pids s = true := by
  unfold skipAlways at h
  unfold skipFilter
  rcases Bool.or_eq_true_iff.mp h with h | h
  · rcases Bool.or_eq_true_iff.mp h with h | h
    · rcases Bool.or_eq_true_iff.mp h with h | h <;> simp [h]
    · simp [h]
  · simp [h]

theorem skipFilter_of_mem {s : Submission} {pids : Finset String}
    (h : s.id ∈ pids) : skipFilter pids s = true := by
  unfold skipFilter
  simp [h]

theorem processSubmission_of_skip (env : Env)
    {st : List Post × Finset String} {s : Submission}
    (h : skipFilter st.2 s = true) :
    processSubmission env st s = st := by
  unfold processSubmission processSubmissionC
  rw [if_pos h]

/-- The retry loop never invokes the synthesis dependency more than
three times. -/
theorem generate_tts_calls_le (env : Env) (text filename : String) :
    (generate_tts env text filename).2 ≤ 3 := by
  unfold generate_tts
  split
  · omega
  · split
    · omega
    · split <;> omega

/-- If every one of the three attempts fails, the retry loop reports
failure after exactly three invocations. -/
theorem generate_tts_all_fail (env : Env) (text filename : String)
    (h : ∀ k, k < 3 →
      env.synth (ttsText text) (AUDIO_DIR ++ "/" ++ filename) k = false) :
    generate_tts env text filename = (none, 3) := by
  unfold generate_tts
  rw [if_neg, if_neg, if_neg]
  · rw [h 2 (by omega)]
    exact Bool.false_ne_true
  · rw [h 1 (by omega)]
    exact Bool.false_ne_true
  · rw [h 0 (by omega)]
    exact Bool.false_ne_true

/-- A submission whose audio is absent and whose three synthesis
attempts all fail leaves the loop state untouched. -/
theorem processSubmission_all_fail (env : Env)
    (st : List Post × Finset String) (s : Submission)
    (hex : env.audioExists (audio_path s) = false)
    (hfail : ∀ k, k < 3 →
      env.synth (ttsText (full_text s)) (audio_path s) k = false) :
    processSubmission env st s = st := by
  unfold processSubmission processSubmissionC
  split
  · rfl
  · rw [if_neg (by rw [hex]; exact Bool.false_ne_true)]
    rw [generate_tts_all_fail env _ _ hfail]

/-- The instrumented step never invokes synthesis more than 3 times. -/
theorem processSubmissionC_calls_le (env : Env)
    (st : List Post × Finset String) (s : Submission) :
    (processSubmissionC env st s).2 ≤ 3 := by
  unfold processSubmissionC
  split
  · omega
  · split
    · omega
    · have h := generate_tts_calls_le env (full_text s) (audio_filename s)
      split
      · rename_i heq
        rw [heq] at h
        exact h
      · rename_i heq
        rw [heq] at h
        exact h

/-- Exclusion invariant: if no accumulated post carries id `x`, `x` is
outside the accumulated set, and every remaining submission with id `x`
is left unaccepted (it is always filtered, or it is a fixed submission
whose synthesis always fails on a missing audio file), then `x` never
enters the output. -/
theorem foldl_excluded (env : Env) (x : String) :
    ∀ (subs : List Submission) (st : List Post × Finset String),
      (∀ t ∈ subs, t.id = x →
        skipAlways t = true ∨
          (env.audioExists (audio_path t) = false ∧
            ∀ k, k < 3 →
              env.synth (ttsText (full_text t)) (audio_path t) k = false)) →
      (x ∉ st.2) → (∀ p ∈ st.1, p.id ≠ x) →
      x ∉ (subs.foldl (processSubmission env) st).2 ∧
        ∀ p ∈ (subs.foldl (processSubmission env) st).1, p.id ≠ x := by
  intro subs
  induction subs with
  | nil =>
    intro st _ h2 h3
    exact ⟨h2, h3⟩
  | cons s rest ih =>
    intro st hsubs h2 h3
    rw [List.foldl_cons]
    by_cases hid : s.id = x
    · have hstep : processSubmission env st s = st := by
        rcases hsubs s (List.mem_cons_self s rest) hid with hsk | ⟨hex, hfail⟩
        · exact processSubmission_of_skip env (skipFilter_of_always hsk st.2)
        · exact processSubmission_all_fail env st s hex hfail
      rw [hstep]
      exact ih st (fun t ht => hsubs t (List.mem_cons_of_mem _ ht)) h2 h3
    · refine ih (processSubmission env st s)
        (fun t ht => hsubs t (List.mem_cons_of_mem _ ht)) ?_ ?_
      · rcases processSubmission_posts_shape env st s with hsh | hsh
        · have : (processSubmission env st s).2 = st.2 ∨
              (processSubmission env st s).2 = insert s.id st.2 := by
            unfold processSubmission processSubmissionC
            split
            · exact Or.inl rfl
            · split
              · exact Or.inr rfl
              · split
                · exact Or.inr rfl
                · exact Or.inl rfl
          rcases this with h | h <;> rw [h]
          · exact h2
          · intro hc
            rcases Finset.mem_insert.mp hc with hc | hc
            · exact hid hc.symm
            · exact h2 hc
        · rw [hsh]
          intro hc
          rcases Finset.mem_insert.mp hc with hc | hc
          · exact hid hc.symm
          · exact h2 hc
      · rcases processSubmission_posts_shape env st s with hsh | hsh
        · rw [hsh]
          exact h3
        · rw [hsh]
          intro p hp
          rcases List.mem_append.mp hp with hp | hp
          · exact h3 p hp
          · rw [List.mem_singleton.mp hp]
            exact fun hc => hid (by exact hc)

/-- Identifiers already in the input set stay in it at every step, so a
submission whose id was in the loaded set is always filtered. -/
theorem foldl_excluded_mem (env : Env) (x : String) :
    ∀ (subs : List Submission) (st : List Post × Finset String),
      x ∈ st.2 → (∀ p ∈ st.1, p.id ≠ x) →
      ∀ p ∈ (subs.foldl (processSubmission env) st).1, p.id ≠ x := by
  intro subs
  induction subs with
  | nil =>
    intro st _ h3
    exact h3
  | cons s rest ih =>
    intro st h2 h3
    rw [List.foldl_cons]
    refine ih (processSubmission env st s)
      (processSubmission_pids_mono env st s h2) ?_
    by_cases hid : s.id = x
    · have hstep : processSubmission env st s = st :=
        processSubmission_of_skip env (skipFilter_of_mem (hid ▸ h2))
      rw [hstep]
      exact h3
    · rcases processSubmission_posts_shape env st s with hsh | hsh
      · rw [hsh]
        exact h3
      · rw [hsh]
        intro p hp
        rcases List.mem_append.mp hp with hp | hp
        · exact h3 p hp
        · rw [List.mem_singleton.mp hp]
          exact fun hc => hid hc

/-! ## `generate_html`

`main.py` lines 179–317.  The document is a single string built from
the fixed header, either the no-new-posts notice or one block per post
(sorted by `date` descending), and a footer carrying the wall-clock
generation time.  The wall clock and the `datetime.fromtimestamp`/
`strftime` formatting are abstracted: `now` is the formatted generation
time, and `fmtDate t` is the formatted timestamp (or `none` when
`datetime.fromtimestamp(...)` raises, in which case the literal
`"Unknown date"` is rendered). -/

/-- The fixed document head and page header (the `html_content`
f-string of lines 183–273, with `TARGET_SUBREDDIT` interpolated). -/
def htmlHeader : String :=
  "<!DOCTYPE html>\n<html lang=\"en\">\n<head>\n    <meta charset=\"UTF-8\">\n    <meta name=\"viewport\" content=\"width=device-width, initial-scale=1.0\">\n    <title>r/"
  ++ TARGET_SUBREDDIT ++
  " Narrated</title>\n    <style>\n        body \x7b \n            font-family: \x27Segoe UI\x27, Tahoma, Geneva, Verdana, sans-serif; \n            line-height: 1.6; \n            padding: 20px; \n            max-width: 800px; \n            margin: auto; \n            background-color: #f5f5f5; \n            color: #333; \n        \x7d\n        header \x7b \n            text-align: center; \n            margin-bottom: 30px; \n            padding-bottom: 20px; \n            border-bottom: 1px solid #ddd; \n        \x7d\n        .post \x7b \n            background-color: #fff; \n            border: 1px solid #ddd; \n            border-radius: 8px; \n            margin-bottom: 25px; \n            padding: 20px; \n            box-shadow: 0 2px 4px rgba(0,0,0,0.1); \n            transition: transform 0.2s ease; \n        \x7d\n        .post:hover \x7b \n            transform: translateY(-3px); \n            box-shadow: 0 4px 8px rgba(0,0,0,0.15); \n        \x7d\n        h1 \x7b \n            color: #2c3e50; \n        \x7d\n        h2 \x7b \n            margin-top: 0; \n            color: #3498db; \n            font-size: 1.5rem; \n        \x7d\n        audio \x7b \n            width: 100%; \n            margin: 15px 0; \n            border-radius: 30px; \n        \x7d\n        details \x7b \n            margin-top: 15px; \n            cursor: pointer; \n        \x7d\n        summary \x7b \n            font-weight: bold; \n            color: #555; \n            padding: 5px 0; \n        \x7d\n        p \x7b \n            white-space: pre-wrap; /* Preserve line breaks */ \n            margin-top: 10px; \n            line-height: 1.7; \n        \x7d\n        .meta \x7b \n            font-size: 0.85rem; \n            color: #888; \n            margin-top: 15px; \n            text-align: right; \n        \x7d\n        .meta a \x7b \n            color: #3498db; \n            text-decoration: none; \n        \x7d\n        .meta a:hover \x7b \n            text-decoration: underline; \n        \x7d\n        footer \x7b \n            text-align: center; \n            margin-top: 40px; \n            padding-top: 20px; \n            border-top: 1px solid #ddd; \n            font-size: 0.9rem; \n            color: #888; \n        \x7d\n    </style>\n</head>\n<body>\n    <header>\n        <h1>r/"
  ++ TARGET_SUBREDDIT ++
  " Narrated</h1>\n        <p>Latest posts with text-to-speech audio. Generated automatically.</p>\n    </header>\n"

/-- The notice rendered when no post was accepted (line 276). -/
def NO_POSTS_NOTICE : String :=
  "<p>No new posts found matching criteria in this run.</p>"

/-- The string opening every rendered post block. -/
def POST_DIV_MARKER : String := "<div class=\"post\""

/-- The formatted date of a post, or `"Unknown date"` when formatting
raises (lines 283–289). -/
def dateStr (fmtDate : Int → Option String) (d : Int) : String :=
  match fmtDate d with
  | some x => x
  | none => "Unknown date"

/-- The source link of a post (line 303; the `'url'` key is always
present on the records built by the pipeline). -/
def urlLink (p : Post) : String :=
  " | <a href=\"" ++ p.url ++
  "\" target=\"_blank\" rel=\"noopener noreferrer\">Original Post</a>"

/-- One post block (the f-string of lines 291–306). -/
def renderPost (fmtDate : Int → Option String) (p : Post) : String :=
  "\n    <div class=\"post\" id=\"post-" ++ p.id ++
  "\">\n        <h2>" ++ p.title ++
  "</h2>\n        <audio controls src=\"" ++ AUDIO_DIR ++ "/" ++
  p.audio_file ++
  "\">\n            Your browser does not support the audio element.\n        </audio>\n        <details>\n            <summary>Show/Hide Text</summary>\n            <p>" ++
  p.text ++
  "</p>\n        </details>\n        <div class=\"meta\">\n            Posted: " ++
  dateStr fmtDate p.date ++
  "\n            " ++ urlLink p ++
  "\n        </div>\n    </div>\n"

/-- The footer with the generation time (lines 308–317). -/
def htmlFooter (now : String) : String :=
  "\n    <footer>\n        <p>Last updated: " ++ now ++
  "</p>\n        <p>Content sourced from <a href=\"https://www.reddit.com/r/"
  ++ TARGET_SUBREDDIT ++
  "\" target=\"_blank\">r/" ++ TARGET_SUBREDDIT ++
  "</a></p>\n    </footer>\n</body>\n</html>\n"

/-- `posts_data.sort(key=lambda x: x.get('date', 0), reverse=True)`:
a stable sort by creation time, newest first (the `'date'` key is
always present). -/
def byDateDesc : Post → Post → Prop := fun a b => b.date ≤ a.date

instance : DecidableRel byDateDesc := fun a b => Int.decLe b.date a.date

instance : IsTotal Post byDateDesc :=
  ⟨fun a b => (le_total b.date a.date).imp id id⟩

instance : IsTrans Post byDateDesc :=
  ⟨fun _ _ _ hab hbc => le_trans hbc hab⟩

def sortPosts (posts : List Post) : List Post :=
  List.insertionSort byDateDesc posts

/-- Concatenation of the rendered blocks, in order (the `+=` loop of
lines 281–306). -/
def concatBlocks : List String → String
  | [] => ""
  | b :: rest => b ++ concatBlocks rest

/-- The variable middle of the document: the notice when no post was
accepted, otherwise the post blocks sorted newest first
(lines 275–306). -/
def htmlBody (fmtDate : Int → Option String) (posts : List Post) : String :=
  if posts.isEmpty then NO_POSTS_NOTICE
  else concatBlocks ((sortPosts posts).map (renderPost fmtDate))

/-- `generate_html` from `main.py`: the full document string. -/
def generate_html (fmtDate : Int → Option String) (now : String)
    (posts : List Post) : String :=
  htmlHeader ++ htmlBody fmtDate posts ++ htmlFooter now

/-! ### Lemmas about the renderer -/

theorem concatBlocks_append (a b : List String) :
    concatBlocks (a ++ b) = concatBlocks a ++ concatBlocks b := by
  induction a with
  | nil => simp [concatBlocks]
  | cons x rest ih => simp [concatBlocks, ih, String.append_assoc]

theorem sortPosts_sorted (posts : List Post) :
    (sortPosts posts).Pairwise byDateDesc :=
  List.sorted_insertionSort byDateDesc posts

theorem mem_sortPosts {p : Post} {posts : List Post} (h : p ∈ posts) :
    p ∈ sortPosts posts :=
  (List.perm_insertionSort byDateDesc posts).mem_iff.mpr h

/-- Character count of a string is the length of its character list. -/
theorem string_length_data (s : String) : s.length = s.data.length := rfl

/-! ## Claim theorems -/

set_option maxRecDepth 8000 in
/-- C1, counterexample: the claim as stated is false — on the
101-character input `"a" * 99 ++ "_b"` the sanitised output is the
100-character prefix `"a" * 99 ++ "_"`, which ends with an underscore
(the truncation to 100 characters happens after the strip, so it can
re-expose a trailing underscore). -/
theorem c1_counterexample :
    ¬ sanitizeOutputSpec (String.mk (List.replicate 99 'a' ++ ['_', 'b'])) := by
  intro h
  exact h.2.2.2.1 (by decide)

/-- C1 (amended): for every input string, the output of
`sanitize_filename` matches the character class `[A-Za-z0-9_.-]*`,
contains no run of two or more consecutive underscores, does not start
with an underscore, and has length at most 100.  (It can end with an
underscore when the 100-character truncation cuts the string.) -/
theorem c1_prop (s : String) :
    (∀ c ∈ (sanitize_filename s).data, isValidChar c = true) ∧
    (sanitize_filename s).data.Chain' (fun a b => ¬(a = '_' ∧ b = '_')) ∧
    (sanitize_filename s).data.head? ≠ some '_' ∧
    (sanitize_filename s).length ≤ 100 :=
  ⟨sanitize_filename_valid s, sanitize_filename_chain' s,
    sanitize_filename_head s, sanitize_filename_len s⟩

/-- C1, witness: the amended theorem evaluated at the concrete input
`"x!y"` (whose sanitised form is `"x_y"`). -/
theorem c1_witness :
    'x' ∈ (sanitize_filename "x!y").data ∧ isValidChar 'x' = true :=
  ⟨by decide, (c1_prop "x!y").1 'x' (by decide)⟩

/-- C2, counterexample: the claim as stated is false — a file whose
bytes are `5` parses as the JSON number 5, and `set(json.load(f))`
then raises `TypeError` (not caught by the
`except (json.JSONDecodeError, IOError)` handler), so
`load_processed_posts` does raise on some byte contents. -/
theorem c2_counterexample :
    load_processed_posts (FileState.parsed (JValue.jnum 5)) =
      Except.error "TypeError" := rfl

/-- C2 (amended): `load_processed_posts` returns the empty set when the
file is absent, unreadable, or not parseable as JSON, and returns the
file's contents as a set of strings when it parses as a JSON array of
strings; but when the file parses to a non-iterable JSON value (for
example a number) it raises `TypeError`. -/
theorem c2_prop :
    load_processed_posts FileState.absent = .ok [] ∧
    load_processed_posts FileState.unreadable = .ok [] ∧
    load_processed_posts FileState.unparsable = .ok [] ∧
    (∀ ids : List String, ∃ out,
      load_processed_posts (FileState.parsed (.jarr (ids.map .jstr))) =
        .ok out ∧ ∀ v, v ∈ out ↔ ∃ s ∈ ids, v = JValue.jstr s) ∧
    (∀ n : Int, load_processed_posts (FileState.parsed (.jnum n)) =
      .error "TypeError") :=
  ⟨rfl, rfl, rfl, fun ids => load_save_mem ids, fun _ => rfl⟩

/-- C2, witness: loading the parsed array `["a"]` yields the set
containing exactly the string `"a"`. -/
theorem c2_witness :
    ∃ out, load_processed_posts
        (FileState.parsed (.jarr ([ "a" ].map .jstr))) = .ok out ∧
      ∀ v, v ∈ out ↔ ∃ s ∈ ["a"], v = JValue.jstr s :=
  c2_prop.2.2.2.1 ["a"]

/-- C3: text strictly longer than `MAX_TEXT_LENGTH` (5000) is
synthesised as exactly its first 5000 characters followed by the fixed
truncation suffix; text of length at most 5000 passes through
unchanged.  (`ttsText` is the text `generate_tts` hands to every
synthesis attempt.) -/
theorem c3_prop (text : String) :
    (text.length > MAX_TEXT_LENGTH →
      ttsText text = text.take MAX_TEXT_LENGTH ++ TRUNC_SUFFIX ∧
      (ttsText text).data =
        text.data.take MAX_TEXT_LENGTH ++ TRUNC_SUFFIX.data ∧
      (text.take MAX_TEXT_LENGTH).length = MAX_TEXT_LENGTH) ∧
    (text.length ≤ MAX_TEXT_LENGTH → ttsText text = text) := by
  constructor
  · intro h
    have heq : ttsText text = text.take MAX_TEXT_LENGTH ++ TRUNC_SUFFIX := by
      unfold ttsText
      rw [if_pos h]
    refine ⟨heq, ?_, ?_⟩
    · rw [heq, String.data_append, String.data_take]
    · rw [string_length_data, String.data_take, List.length_take]
      rw [string_length_data] at h
      omega
  · intro h
    unfold ttsText
    rw [if_neg (by omega)]

/-- C3, witness: a 5001-character text is over the cap and its
synthesised prefix has exactly 5000 characters; the 2-character text
`"hi"` passes through unchanged. -/
theorem c3_witness :
    (String.mk (List.replicate 5001 'a')).length > MAX_TEXT_LENGTH ∧
    ((String.mk (List.replicate 5001 'a')).take MAX_TEXT_LENGTH).length =
      MAX_TEXT_LENGTH ∧
    ("hi".length ≤ MAX_TEXT_LENGTH ∧ ttsText "hi" = "hi") := by
  have hlen : (String.mk (List.replicate 5001 'a')).length > MAX_TEXT_LENGTH := by
    rw [string_length_data]
    show (List.replicate 5001 'a').length > MAX_TEXT_LENGTH
    rw [List.length_replicate]
    decide
  have hshort : "hi".length ≤ MAX_TEXT_LENGTH := by decide
  exact ⟨hlen, ((c3_prop _).1 hlen).2.2, hshort, (c3_prop "hi").2 hshort⟩

/-- C4: for an item whose audio file does not already exist, the
synthesis dependency is invoked at most 3 times while processing it,
and if all 3 attempts fail the item is skipped entirely: its identifier
is not in the `processed_ids` set returned by
`fetch_and_process_posts` and no post with its identifier is in the
returned list.  (`hid` pins the identifier to this one submission.) -/
theorem c4_prop (env : Env) (subs : List Submission)
    (pids : Finset String) (s : Submission)
    (hex : env.audioExists (audio_path s) = false)
    (hfail : ∀ k, k < 3 →
      env.synth (ttsText (full_text s)) (audio_path s) k = false)
    (hid : ∀ t ∈ subs, t.id = s.id → t = s)
    (h0 : s.id ∉ pids) :
    (∀ st, (processSubmissionC env st s).2 ≤ 3) ∧
    s.id ∉ (fetch_and_process_posts env subs pids).2 ∧
    ∀ p ∈ (fetch_and_process_posts env subs pids).1, p.id ≠ s.id := by
  refine ⟨fun st => processSubmissionC_calls_le env st s, ?_⟩
  refine foldl_excluded env s.id subs ([], pids) ?_ h0 (by simp)
  intro t ht htid
  rw [hid t ht htid]
  exact Or.inr ⟨hex, hfail⟩

/-- C4, witness: with a synthesiser that always fails and no cached
audio, the single valid submission is absent from both outputs. -/
theorem c4_witness :
    ((⟨"p1", "T", String.mk (List.replicate 60 'b'), true, false, 7, "/x"⟩ :
        Submission).id ∉ (∅ : Finset String)) ∧
    (⟨"p1", "T", String.mk (List.replicate 60 'b'), true, false, 7, "/x"⟩ :
        Submission).id ∉
      (fetch_and_process_posts
        ⟨fun _ => false, fun _ _ _ => false⟩
        [⟨"p1", "T", String.mk (List.replicate 60 'b'), true, false, 7, "/x"⟩]
        ∅).2 := by
  refine ⟨by simp, ?_⟩
  exact (c4_prop ⟨fun _ => false, fun _ _ _ => false⟩
    [⟨"p1", "T", String.mk (List.replicate 60 'b'), true, false, 7, "/x"⟩] ∅
    ⟨"p1", "T", String.mk (List.replicate 60 'b'), true, false, 7, "/x"⟩
    rfl (fun _ _ => rfl)
    (by
      intro t ht htid
      rw [List.mem_singleton.mp ht])
    (by simp)).2.1

/-- C5: an item whose identifier is already in the input
`processed_ids` set never yields a post in the output list, whatever
its other fields; likewise an item that is stickied, not a self post,
has empty body text, or has body text shorter than 50 characters
(provided every fetched submission bearing that identifier is so
filtered). -/
theorem c5_prop (env : Env) (subs : List Submission)
    (pids : Finset String) (s : Submission)
    (h : s.id ∈ pids ∨ ∀ t ∈ subs, t.id = s.id →
      (t.stickied = true ∨ t.is_self = false ∨ t.selftext = "" ∨
        t.selftext.length < MIN_TEXT_LENGTH)) :
    ∀ p ∈ (fetch_and_process_posts env subs pids).1, p.id ≠ s.id := by
  by_cases hm : s.id ∈ pids
  · exact foldl_excluded_mem env s.id subs ([], pids) hm (by simp)
  · rcases h with h | h
    · exact absurd h hm
    · refine (foldl_excluded env s.id subs ([], pids) ?_ hm (by simp)).2
      intro t ht htid
      left
      unfold skipAlways
      rcases h t ht htid with hc | hc | hc | hc
      · simp [hc]
      · simp [hc]
      · simp [hc]
      · simp [hc]

/-- C5, witness: with the identifier `"x"` pre-loaded in the dedup set,
the otherwise-valid one-submission run yields no post for it. -/
theorem c5_witness :
    ("x" ∈ ({"x"} : Finset String)) ∧
    mkPost (⟨"x", "T", String.mk (List.replicate 60 'b'), true, false, 7,
        "/x"⟩ : Submission) ∉
      (fetch_and_process_posts ⟨fun _ => true, fun _ _ _ => true⟩
        [⟨"x", "T", String.mk (List.replicate 60 'b'), true, false, 7, "/x"⟩]
        {"x"}).1 := by
  refine ⟨by simp, fun hmem => ?_⟩
  exact c5_prop ⟨fun _ => true, fun _ _ _ => true⟩
    [⟨"x", "T", String.mk (List.replicate 60 'b'), true, false, 7, "/x"⟩]
    {"x"}
    ⟨"x", "T", String.mk (List.replicate 60 'b'), true, false, 7, "/x"⟩
    (Or.inl (by simp)) _ hmem rfl

/-- C6: for an item that passes the filter and whose derived audio file
already exists on disk, the synthesis dependency is not invoked (0
calls), the derived file name is used as the post's audio asset, and
the item is accepted: its post is appended and its identifier inserted
into `processed_ids`. -/
theorem c6_prop (env : Env) (st : List Post × Finset String)
    (s : Submission)
    (hex : env.audioExists (audio_path s) = true)
    (hpass : skipFilter st.2 s = false) :
    processSubmissionC env st s =
      ((st.1 ++ [mkPost s], insert s.id st.2), 0) ∧
    (mkPost s).audio_file = audio_filename s := by
  constructor
  · unfold processSubmissionC
    rw [if_neg (by rw [hpass]; exact Bool.false_ne_true), if_pos hex]
  · rfl

/-- C6, witness: the cache-hit step at a concrete valid submission. -/
theorem c6_witness :
    skipFilter (∅ : Finset String)
      (⟨"p2", "T", String.mk (List.replicate 60 'b'), true, false, 7, "/x"⟩ :
        Submission) = false ∧
    processSubmissionC ⟨fun _ => true, fun _ _ _ => false⟩ ([], ∅)
      ⟨"p2", "T", String.mk (List.replicate 60 'b'), true, false, 7, "/x"⟩ =
      (([mkPost ⟨"p2", "T", String.mk (List.replicate 60 'b'), true, false, 7,
        "/x"⟩], insert "p2" ∅), 0) := by
  have hpass : skipFilter (∅ : Finset String)
      (⟨"p2", "T", String.mk (List.replicate 60 'b'), true, false, 7, "/x"⟩ :
        Submission) = false := by
    unfold skipFilter
    simp [MIN_TEXT_LENGTH, string_length_data]
  exact ⟨hpass,
    (c6_prop ⟨fun _ => true, fun _ _ _ => false⟩ ([], ∅) _ rfl hpass).1⟩

/-- C7: saving a set of identifiers and loading it back yields the same
set of identifiers, independent of iteration order. -/
theorem c7_prop (ids : List String) :
    ∃ out, load_processed_posts (save_processed_posts ids) = .ok out ∧
      ∀ v, v ∈ out ↔ ∃ s ∈ ids, v = JValue.jstr s :=
  load_save_mem ids

/-- C7, witness: the round trip at the concrete set `{"a", "b"}`. -/
theorem c7_witness :
    ∃ out, load_processed_posts (save_processed_posts ["a", "b"]) =
        .ok out ∧
      ∀ v, v ∈ out ↔ ∃ s ∈ ["a", "b"], v = JValue.jstr s :=
  c7_prop ["a", "b"]

/-- C8: on an empty post list the rendered document contains the
no-new-posts notice and its body is exactly that notice (so it has no
post blocks); on any list the rendered blocks follow `sortPosts`,
which is sorted by creation time descending. -/
theorem c8_prop (fmtDate : Int → Option String) (now : String) :
    (∃ a b, generate_html fmtDate now [] =
      a ++ "No new posts found matching criteria in this run." ++ b) ∧
    htmlBody fmtDate [] = NO_POSTS_NOTICE ∧
    (∀ posts : List Post, posts ≠ [] →
      generate_html fmtDate now posts =
        htmlHeader ++
          concatBlocks ((sortPosts posts).map (renderPost fmtDate)) ++
          htmlFooter now) ∧
    (∀ posts : List Post,
      (sortPosts posts).Pairwise (fun a b => b.date ≤ a.date)) := by
  refine ⟨⟨htmlHeader ++ "<p>", "</p>" ++ htmlFooter now, ?_⟩, rfl, ?_, ?_⟩
  · show htmlHeader ++ NO_POSTS_NOTICE ++ htmlFooter now = _
    have hsplit : NO_POSTS_NOTICE =
        "<p>" ++ "No new posts found matching criteria in this run." ++
          "</p>" := rfl
    rw [hsplit]
    simp only [String.append_assoc]
  · intro posts hne
    cases posts with
    | nil => exact absurd rfl hne
    | cons q rest => rfl
  · intro posts
    exact sortPosts_sorted posts

/-- C8, witness: the non-empty branch of the theorem at a one-post
list. -/
theorem c8_witness :
    ([(⟨"i", "t", "x", "f.mp3", 0, "u"⟩ : Post)] ≠ ([] : List Post)) ∧
    generate_html (fun _ => none) "now" [⟨"i", "t", "x", "f.mp3", 0, "u"⟩] =
      htmlHeader ++
        concatBlocks ((sortPosts [⟨"i", "t", "x", "f.mp3", 0, "u"⟩]).map
          (renderPost (fun _ => none))) ++
        htmlFooter "now" := by
  refine ⟨by simp, ?_⟩
  exact (c8_prop (fun _ => none) "now").2.2.1 _ (by simp)

/-- C9: `fetch_and_process_posts` only ever adds to the processed-id
set (the returned set contains the input set), and every post in the
returned list has its identifier in the returned set. -/
theorem c9_prop (env : Env) (subs : List Submission)
    (pids : Finset String) :
    pids ⊆ (fetch_and_process_posts env subs pids).2 ∧
    ∀ p ∈ (fetch_and_process_posts env subs pids).1,
      p.id ∈ (fetch_and_process_posts env subs pids).2 :=
  ⟨foldl_pids_mono env subs ([], pids),
   foldl_posts_ids env subs ([], pids) (by simp)⟩

/-- C9, witness: a pre-loaded identifier survives an empty fetch. -/
theorem c9_witness :
    "a" ∈ (fetch_and_process_posts ⟨fun _ => false, fun _ _ _ => false⟩ []
      {"a"}).2 :=
  (c9_prop ⟨fun _ => false, fun _ _ _ => false⟩ [] {"a"}).1 (by simp)

/-- C10: the renderer inserts each post's title and full body text into
the document verbatim — the document is literally
`... ++ title ++ ... ++ text ++ ...` with no escaping applied. -/
theorem c10_prop (fmtDate : Int → Option String) (now : String)
    (posts : List Post) (p : Post) (hp : p ∈ posts) :
    ∃ a b c, generate_html fmtDate now posts =
      a ++ p.title ++ b ++ p.text ++ c := by
  rcases List.append_of_mem (mem_sortPosts hp) with ⟨l1, l2, hsplit⟩
  have hne : posts ≠ [] := by
    rintro rfl
    simp at hp
  have hbody : htmlBody fmtDate posts =
      concatBlocks ((sortPosts posts).map (renderPost fmtDate)) := by
    cases posts with
    | nil => exact absurd rfl hne
    | cons q rest => rfl
  refine ⟨htmlHeader ++ concatBlocks (List.map (renderPost fmtDate) l1) ++
      ("\n    <div class=\"post\" id=\"post-" ++ p.id ++ "\">\n        <h2>"),
    "</h2>\n        <audio controls src=\"" ++ AUDIO_DIR ++ "/" ++
      p.audio_file ++
      "\">\n            Your browser does not support the audio element.\n        </audio>\n        <details>\n            <summary>Show/Hide Text</summary>\n            <p>",
    "</p>\n        </details>\n        <div class=\"meta\">\n            Posted: "
      ++ dateStr fmtDate p.date ++ "\n            " ++ urlLink p ++
      "\n        </div>\n    </div>\n" ++
      concatBlocks (List.map (renderPost fmtDate) l2) ++ htmlFooter now, ?_⟩
  rw [generate_html, hbody, hsplit, List.map_append, List.map_cons,
    concatBlocks_append]
  show htmlHeader ++ (concatBlocks (List.map (renderPost fmtDate) l1) ++
      (renderPost fmtDate p ++
        concatBlocks (List.map (renderPost fmtDate) l2))) ++
      htmlFooter now = _
  rw [renderPost]
  simp only [String.append_assoc]

/-- C10, witness: the verbatim decomposition at a concrete post. -/
theorem c10_witness :
    ((⟨"i", "Ti", "Bo", "f.mp3", 0, "u"⟩ : Post) ∈
      [(⟨"i", "Ti", "Bo", "f.mp3", 0, "u"⟩ : Post)]) ∧
    ∃ a b c, generate_html (fun _ => none) "now"
        [(⟨"i", "Ti", "Bo", "f.mp3", 0, "u"⟩ : Post)] =
      a ++ "Ti" ++ b ++ "Bo" ++ c := by
  refine ⟨by simp, ?_⟩
  exact c10_prop (fun _ => none) "now"
    [(⟨"i", "Ti", "Bo", "f.mp3", 0, "u"⟩ : Post)]
    (⟨"i", "Ti", "Bo", "f.mp3", 0, "u"⟩ : Post)
    (List.mem_singleton.mpr rfl)

end SupraSub
